import Mathlib

/-!
Verification model of the annotation, measurement, tour and camera logic of
src/viewer.js (Parthenon Cavalcade Viewer).  3D positions are modelled with
exact rational coordinates; the Euclidean distance published by the
measurement tool is a real number.  The DOM elements that the script mutates
(the modal input fields, the save button, the info panel, the cursor style,
the measurement readout) are modelled as fields of the application state
record.  Names ending in Fn model the JavaScript function of the same stem;
the structure called AnnotationData models the object literal pushed by the
save handler, and the state field isAddingAnnotationMode models the
isAddingAnnotation flag of the script.
-/

/-- A 3D vector, modelling THREE.Vector3 with exact rational coordinates. -/
structure Vec3 where
  x : ℚ
  y : ℚ
  z : ℚ
deriving DecidableEq, Repr

/-- One stored annotation: 1-based ordinal id, title, description, position
(the object literal built in saveAnnotation, src/viewer.js lines 722-727). -/
structure AnnotationData where
  id : Nat
  title : String
  description : String
  position : Vec3
deriving DecidableEq, Repr

/-- The mutable application state of src/viewer.js (lines 31-55) restricted to
the fields that the annotation, measurement, tour and placement logic read or
write, together with the DOM cells those handlers mutate. -/
structure ViewerState where
  modelLoaded : Bool
  annotations : List AnnotationData
  tourIndex : Int
  isTourActive : Bool
  isMeasuring : Bool
  measurePoints : List Vec3
  measureMarkers : List Vec3
  measureLine : Option (Vec3 × Vec3)
  measurementResult : Option ℝ
  isAddingAnnotationMode : Bool
  pendingAnnotationPosition : Option Vec3
  previewMarker : Option (Vec3 × Bool)
  placedMarker : Option Vec3
  annotationMarkers : List Nat
  infoPanelHidden : Bool
  infoTitle : String
  infoDescription : String
  cursorStyle : String
  saveBtnDisabled : Bool
  titleInput : String
  descInput : String

/-- clearMeasurement (src/viewer.js lines 497-511): drops the collected
points, the marker meshes, the drawn line, and blanks the readout. -/
def clearMeasurement (s : ViewerState) : ViewerState :=
  { s with measurePoints := [], measureMarkers := [], measureLine := none,
           measurementResult := none }

/-- toggleMeasureMode (src/viewer.js lines 483-495): flips the measuring flag
and clears the measurement session.  It does not touch the placement flag. -/
def toggleMeasureMode (s : ViewerState) : ViewerState :=
  let s1 := clearMeasurement { s with isMeasuring := !s.isMeasuring }
  { s1 with cursorStyle := if s1.isMeasuring then "crosshair" else "grab" }

/-- THREE.Vector3.distanceTo: the Euclidean distance between two points. -/
noncomputable def distanceTo (a b : Vec3) : ℝ :=
  Real.sqrt (((b.x - a.x) ^ 2 + (b.y - a.y) ^ 2 + (b.z - a.z) ^ 2 : ℚ) : ℝ)

/-- addMeasurePoint (src/viewer.js lines 513-536): pushes a marker and the
point; when exactly two points have been collected, publishes their distance
(the readout shows it with three decimals) and stores the connecting line. -/
noncomputable def addMeasurePoint (p : Vec3) (s : ViewerState) : ViewerState :=
  let s1 := { s with measureMarkers := s.measureMarkers ++ [p],
                     measurePoints := s.measurePoints ++ [p] }
  match s1.measurePoints with
  | [a, b] => { s1 with measurementResult := some (distanceTo a b),
                        measureLine := some (a, b) }
  | _ => s1

/-- toggleAddAnnotationMode (src/viewer.js lines 599-634).  Entering placement
mode resets the pending position, the modal inputs and the save button, and
creates a hidden preview marker at (0, -1000, 0) lifted by 0.09; leaving it
removes the preview and placed markers.  The pending position is NOT reset on
the way out, and the measuring flag is never touched. -/
def toggleAddAnnotationMode (s : ViewerState) : ViewerState :=
  let adding := !s.isAddingAnnotationMode
  if adding then
    { s with isAddingAnnotationMode := true,
             cursorStyle := "crosshair",
             pendingAnnotationPosition := none,
             saveBtnDisabled := true,
             titleInput := "",
             descInput := "",
             previewMarker := some (⟨0, -1000 + 9/100, 0⟩, false) }
  else
    { s with isAddingAnnotationMode := false,
             cursorStyle := "grab",
             previewMarker := none,
             placedMarker := none }

/-- setAnnotationPosition (src/viewer.js lines 644-662): stages the picked
point as the pending placement position (replacing any previous one), enables
the save button, hides the hover preview and installs the placed marker
(createPlacedMarker lifts it 0.1 above the surface). -/
def setAnnotationPosition (p : Vec3) (s : ViewerState) : ViewerState :=
  { s with pendingAnnotationPosition := some p,
           saveBtnDisabled := false,
           previewMarker := s.previewMarker.map (fun pm => (pm.1, false)),
           placedMarker := some ⟨p.x, p.y + 1/10, p.z⟩ }

/-- update3DAnnotationMarkers (src/viewer.js lines 586-597): rebuilds one
marker per annotation, carrying indices 0..N-1. -/
def updateMarkers (s : ViewerState) : ViewerState :=
  { s with annotationMarkers := List.range s.annotations.length }

/-- JavaScript String.prototype.trim, modelled on the character list of the
string: leading and trailing whitespace characters are removed (the model
covers the ASCII whitespace of Char.isWhitespace). -/
def jsTrim (t : String) : String :=
  String.mk (((t.data.dropWhile Char.isWhitespace).reverse.dropWhile
    Char.isWhitespace).reverse)

/-- saveAnnotation (src/viewer.js lines 716-743).  Title and description are
read from the modal inputs and trimmed; an empty trimmed title or a missing
staged position aborts with no state change.  Otherwise the new entry is
appended with id = length + 1 (description falling back to a placeholder),
the placed marker is removed, the 3D markers are rebuilt, and placement mode
is toggled off. -/
def saveAnnotationFn (s : ViewerState) : ViewerState :=
  let title := jsTrim s.titleInput
  let description := jsTrim s.descInput
  match s.pendingAnnotationPosition with
  | none => s
  | some p =>
    if title = "" then s
    else
      let newEntry : AnnotationData :=
        { id := s.annotations.length + 1,
          title := title,
          description := if description = "" then "No description provided." else description,
          position := p }
      let s1 := { s with annotations := s.annotations ++ [newEntry],
                         placedMarker := none }
      toggleAddAnnotationMode (updateMarkers s1)

/-- cancelAnnotation (src/viewer.js lines 745-747). -/
def cancelAnnotationFn (s : ViewerState) : ViewerState :=
  toggleAddAnnotationMode s

/-- The renumbering forEach of deleteAnnotation (src/viewer.js lines 311-313):
the entry at 0-based offset j from position k receives id k + j + 1. -/
def renumberFrom (k : Nat) : List AnnotationData → List AnnotationData
  | [] => []
  | a :: rest => { a with id := k + 1 } :: renumberFrom (k + 1) rest

/-- JavaScript Array.prototype.splice start normalisation: a negative start
counts from the end and is clamped at 0; a start beyond the length is clamped
to the length. -/
def spliceStart (len : Nat) (i : Int) : Nat :=
  if i < 0 then ((len : Int) + i).toNat else min i.toNat len

/-- splice(i, 1): removes the element at the normalised start index. -/
def splice1 {α : Type} (l : List α) (i : Int) : List α :=
  let start := spliceStart l.length i
  l.take start ++ l.drop (start + 1)

/-- deleteAnnotation (src/viewer.js lines 306-329): splices the entry out
(with JavaScript index semantics), renumbers all ids, clamps the tour cursor
when it fell off the end, and when the list becomes empty forces the cursor
to -1 and hides the info panel; finally rebuilds the 3D markers. -/
def deleteAnnotationFn (i : Int) (s : ViewerState) : ViewerState :=
  let anns := renumberFrom 0 (splice1 s.annotations i)
  let t1 : Int := if (anns.length : Int) ≤ s.tourIndex then (anns.length : Int) - 1 else s.tourIndex
  let t2 : Int := if anns.length = 0 then -1 else t1
  let hidden := if anns.length = 0 then true else s.infoPanelHidden
  { s with annotations := anns,
           tourIndex := t2,
           infoPanelHidden := hidden,
           annotationMarkers := List.range anns.length }

/-- JavaScript array indexing state.annotations[index]: undefined (none) for a
negative or past-the-end index. -/
def getAnn (l : List AnnotationData) (i : Int) : Option AnnotationData :=
  if 0 ≤ i then l.get? i.toNat else none

/-- focusAnnotation (src/viewer.js lines 376-399): looks the entry up and
returns unchanged on a miss; otherwise sets the tour cursor and fills and
shows the info panel (the camera flight it also starts is modelled by
cameraTick below). -/
def focusAnnotationFn (i : Int) (s : ViewerState) : ViewerState :=
  match getAnn s.annotations i with
  | none => s
  | some a =>
    { s with tourIndex := i,
             infoTitle := a.title,
             infoDescription := a.description,
             infoPanelHidden := false }

/-- startTour (src/viewer.js lines 430-444): alerts and leaves the state
unchanged when there are no annotations, else activates the tour and focuses
entry 0. -/
def startTour (s : ViewerState) : ViewerState :=
  if s.annotations.length = 0 then s
  else focusAnnotationFn 0 { s with isTourActive := true, tourIndex := 0 }

/-- endTour (src/viewer.js lines 446-457). -/
def endTour (s : ViewerState) : ViewerState :=
  { s with isTourActive := false, tourIndex := -1, infoPanelHidden := true }

/-- nextTourStop (src/viewer.js lines 459-463). -/
def nextTourStop (s : ViewerState) : ViewerState :=
  if s.tourIndex < (s.annotations.length : Int) - 1 then focusAnnotationFn (s.tourIndex + 1) s
  else s

/-- prevTourStop (src/viewer.js lines 465-469). -/
def prevTourStop (s : ViewerState) : ViewerState :=
  if 0 < s.tourIndex then focusAnnotationFn (s.tourIndex - 1) s else s

/-- The model-surface part of onCanvasClick (src/viewer.js lines 858-869):
a surface hit is recorded as a measure point when measuring with fewer than
two points, else staged as the placement position when placing, else
ignored; a surface miss does nothing. -/
noncomputable def clickSurfacePart (surfaceHit : Option Vec3) (s : ViewerState) : ViewerState :=
  match surfaceHit with
  | some p =>
    if s.isMeasuring = true ∧ s.measurePoints.length < 2 then addMeasurePoint p s
    else if s.isAddingAnnotationMode = true then setAnnotationPosition p s
    else s
  | none => s

/-- onCanvasClick (src/viewer.js lines 836-870).  markerHit is the resolved
annotation-marker ray hit (the index and isPreview flag found by walking up
to the owning group), surfaceHit the nearest model-surface intersection;
either may be absent.  Marker hit-testing runs only outside both modes and
only when markers exist; a resolved non-preview hit focuses that annotation
and short-circuits the surface pick, anything else falls through to it. -/
noncomputable def onCanvasClick (markerHit : Option (Int × Bool))
    (surfaceHit : Option Vec3) (s : ViewerState) : ViewerState :=
  if s.modelLoaded = false then s
  else
    match markerHit with
    | some (idx, isPrev) =>
      if s.isMeasuring = false ∧ s.isAddingAnnotationMode = false ∧
          0 < s.annotationMarkers.length ∧ isPrev = false then
        focusAnnotationFn idx s
      else clickSurfacePart surfaceHit s
    | none => clickSurfacePart surfaceHit s

/-- onCanvasMouseMove (src/viewer.js lines 872-888): in placement mode, moves
the hover preview onto the surface hit (lifted by 0.09) or hides it. -/
def onCanvasMouseMove (hit : Option Vec3) (s : ViewerState) : ViewerState :=
  if s.modelLoaded = false ∨ s.isAddingAnnotationMode = false then s
  else
    match hit, s.previewMarker with
    | some p, some _ => { s with previewMarker := some (⟨p.x, p.y + 9/100, p.z⟩, true) }
    | none, some pm => { s with previewMarker := some (pm.1, false) }
    | _, none => s

/-- The Escape branch of the keydown handler (src/viewer.js lines 945-948):
first cancels placement if active, then ends the tour if active. -/
def onEscape (s : ViewerState) : ViewerState :=
  let s1 := if s.isAddingAnnotationMode then cancelAnnotationFn s else s
  if s1.isTourActive then endTour s1 else s1

/-- easeOutCubic (src/viewer.js lines 423-425). -/
def easeOutCubic (t : ℚ) : ℚ := 1 - (1 - t) ^ 3

/-- THREE.Vector3.lerpVectors: componentwise a + (b - a) * t. -/
def lerpV (a b : Vec3) (t : ℚ) : Vec3 :=
  ⟨a.x + (b.x - a.x) * t, a.y + (b.y - a.y) * t, a.z + (b.z - a.z) * t⟩

/-- The progress computation of the animateCamera update tick
(src/viewer.js line 408), Math.min(elapsed / duration, 1), under JavaScript
float semantics for a nonnegative elapsed time: for duration = 0 and
elapsed > 0 the quotient is +Infinity and the minimum is 1, while 0 / 0 is
NaN (modelled as none; every value computed from it stays NaN). -/
def jsProgress (elapsed duration : ℚ) : Option ℚ :=
  if duration = 0 then (if 0 < elapsed then some 1 else none)
  else some (min (elapsed / duration) 1)

/-- One tick of the animateCamera update closure (src/viewer.js lines
406-413): camera position and controls target are interpolated by the eased
progress from the start values sampled when the animation was requested;
none models a NaN-poisoned camera. -/
def cameraTick (startPos newPos startTarget newTarget : Vec3)
    (elapsed duration : ℚ) : Option (Vec3 × Vec3) :=
  (jsProgress elapsed duration).map fun progress =>
    (lerpV startPos newPos (easeOutCubic progress),
     lerpV startTarget newTarget (easeOutCubic progress))

/-- One externally triggered event of the interactive session, dispatched by
the listeners registered in setupEventListeners (src/viewer.js 893-957). -/
inductive Op where
  | modelLoad
  | click (markerHit : Option (Int × Bool)) (surfaceHit : Option Vec3)
  | mouseMove (hit : Option Vec3)
  | typeTitle (t : String)
  | typeDescr (d : String)
  | toggleMeasure
  | toggleAdd
  | pressSave
  | pressCancel
  | pressDelete (i : Int)
  | cardFocus (i : Int)
  | tourToggle
  | tourNext
  | tourPrev
  | pressEscape

/-- Dispatch of one event to the handler functions of src/viewer.js. -/
noncomputable def applyOp (op : Op) (s : ViewerState) : ViewerState :=
  match op with
  | .modelLoad => { s with modelLoaded := true }
  | .click mh sh => onCanvasClick mh sh s
  | .mouseMove h => onCanvasMouseMove h s
  | .typeTitle t => { s with titleInput := t }
  | .typeDescr d => { s with descInput := d }
  | .toggleMeasure => toggleMeasureMode s
  | .toggleAdd => toggleAddAnnotationMode s
  | .pressSave => saveAnnotationFn s
  | .pressCancel => cancelAnnotationFn s
  | .pressDelete i => deleteAnnotationFn i s
  | .cardFocus i => focusAnnotationFn i s
  | .tourToggle => if s.isTourActive then endTour s else startTour s
  | .tourNext => nextTourStop s
  | .tourPrev => prevTourStop s
  | .pressEscape => onEscape s

/-- The initial application state (src/viewer.js lines 31-55), before the
asynchronous model load has completed. -/
def initState : ViewerState :=
  { modelLoaded := false, annotations := [], tourIndex := -1, isTourActive := false,
    isMeasuring := false, measurePoints := [], measureMarkers := [], measureLine := none,
    measurementResult := none, isAddingAnnotationMode := false,
    pendingAnnotationPosition := none, previewMarker := none, placedMarker := none,
    annotationMarkers := [], infoPanelHidden := true, infoTitle := "", infoDescription := "",
    cursorStyle := "grab", saveBtnDisabled := true, titleInput := "", descInput := "" }

/-- Run a sequence of events from a state. -/
noncomputable def run (ops : List Op) (s : ViewerState) : ViewerState :=
  ops.foldl (fun t op => applyOp op t) s

/-- Ordinals counted from offset k: the entry at relative offset j has id
k + j + 1. -/
def wellNumberedFrom : Nat → List AnnotationData → Prop
  | _, [] => True
  | k, a :: rest => a.id = k + 1 ∧ wellNumberedFrom (k + 1) rest

/-- Every annotation's id equals its 0-based index plus one. -/
def wellNumbered (l : List AnnotationData) : Prop := wellNumberedFrom 0 l

/-- The tour cursor stays inside [-1, N-1]. -/
def cursorInRange (s : ViewerState) : Prop :=
  -1 ≤ s.tourIndex ∧ s.tourIndex ≤ (s.annotations.length : Int) - 1


/-- The reachable-state invariant: ordinals well numbered, cursor in range,
at most two collected measure points. -/
def StateInv (s : ViewerState) : Prop :=
  wellNumbered s.annotations ∧ cursorInRange s ∧ s.measurePoints.length ≤ 2

/-- Event sequence producing one saved annotation titled Rider at (1,2,3). -/
def opsOneEntry : List Op :=
  [.modelLoad, .toggleAdd, .click none (some ⟨1, 2, 3⟩), .typeTitle "Rider", .pressSave]

/-- Event sequence entering placement mode and staging the point (1,2,3). -/
def opsStaged : List Op := [.modelLoad, .toggleAdd, .click none (some ⟨1, 2, 3⟩)]

/-- opsStaged followed by typing a non-blank title. -/
def opsStagedTitled : List Op := opsStaged ++ [.typeTitle "Rider"]

/-- opsStaged followed by typing a whitespace-only title. -/
def opsWsTitle : List Op := opsStaged ++ [.typeTitle "   "]

/-- opsStaged followed by typing a padded title (blank description). -/
def opsPadTitle : List Op := opsStaged ++ [.typeTitle "  Rider  "]

/-- The state after entering measuring mode and picking the point (0,0,0). -/
noncomputable def sOnePt : ViewerState :=
  run [.modelLoad, .toggleMeasure, .click none (some ⟨0, 0, 0⟩)] initState

lemma wellNumberedFrom_renumberFrom :
    ∀ (l : List AnnotationData) (k : Nat), wellNumberedFrom k (renumberFrom k l)
  | [], _ => True.intro
  | _ :: rest, k => ⟨rfl, wellNumberedFrom_renumberFrom rest (k + 1)⟩

lemma wellNumberedFrom_snoc :
    ∀ (l : List AnnotationData) (k : Nat) (a : AnnotationData),
      wellNumberedFrom k l → a.id = k + l.length + 1 → wellNumberedFrom k (l ++ [a])
  | [], k, a, _, ha => ⟨by simpa using ha, True.intro⟩
  | b :: rest, k, a, h, ha =>
    ⟨h.1, wellNumberedFrom_snoc rest (k + 1) a h.2 (by
      simp only [List.length_cons] at ha; omega)⟩

lemma renumberFrom_eq_self :
    ∀ (l : List AnnotationData) (k : Nat), wellNumberedFrom k l → renumberFrom k l = l
  | [], _, _ => rfl
  | a :: rest, k, h => by
    have hrec := renumberFrom_eq_self rest (k + 1) h.2
    have ha : ({ a with id := k + 1 } : AnnotationData) = a := by
      cases a with
      | mk i t d p =>
        have hi : i = k + 1 := h.1
        simp [hi]
    simp [renumberFrom, hrec, ha]

lemma wellNumberedFrom_get :
    ∀ (l : List AnnotationData) (k : Nat), wellNumberedFrom k l →
      ∀ (j : Nat) (h : j < l.length), (l.get ⟨j, h⟩).id = k + j + 1
  | [], _, _, j, h => absurd h (by simp)
  | a :: rest, k, hw, 0, h => by simpa using hw.1
  | a :: rest, k, hw, j + 1, h => by
    have h' : j < rest.length := by simpa using Nat.lt_of_succ_lt_succ h
    have h2 := wellNumberedFrom_get rest (k + 1) hw.2 j h'
    simp only [List.get_cons_succ]
    omega

lemma getAnn_some_bounds {l : List AnnotationData} {i : Int} {a : AnnotationData}
    (h : getAnn l i = some a) : 0 ≤ i ∧ i < (l.length : Int) := by
  unfold getAnn at h
  split at h
  case isTrue h0 =>
    obtain ⟨hlt, -⟩ := List.get?_eq_some.mp h
    omega
  case isFalse h0 => simp at h

lemma getAnn_none_of_out {l : List AnnotationData} {i : Int}
    (h : i < 0 ∨ (l.length : Int) ≤ i) : getAnn l i = none := by
  unfold getAnn
  rcases h with h | h
  · rw [if_neg (by omega)]
  · rw [if_pos (by omega)]
    exact List.get?_eq_none.mpr (by omega)

lemma focus_out_of_range {i : Int} {s : ViewerState}
    (h : i < 0 ∨ (s.annotations.length : Int) ≤ i) : focusAnnotationFn i s = s := by
  unfold focusAnnotationFn
  rw [getAnn_none_of_out h]

lemma splice1_of_length_le {α : Type} (l : List α) (i : Int)
    (h : (l.length : Int) ≤ i) : splice1 l i = l := by
  have hs : spliceStart l.length i = l.length := by
    unfold spliceStart
    rw [if_neg (by omega)]
    exact min_eq_right (by omega)
  simp only [splice1, hs]
  rw [List.take_length, List.drop_eq_nil_of_le (by omega), List.append_nil]

lemma inv_focus (i : Int) (s : ViewerState) (h : StateInv s) :
    StateInv (focusAnnotationFn i s) := by
  obtain ⟨h1, h2, h3⟩ := h
  unfold focusAnnotationFn
  cases hg : getAnn s.annotations i with
  | none => exact ⟨h1, h2, h3⟩
  | some a =>
    obtain ⟨hge, hlt⟩ := getAnn_some_bounds hg
    refine ⟨h1, ⟨?_, ?_⟩, h3⟩
    · show (-1 : Int) ≤ i
      omega
    · show i ≤ (s.annotations.length : Int) - 1
      omega

lemma delete_tourIndex_bounds (i : Int) (s : ViewerState) (h : -1 ≤ s.tourIndex) :
    -1 ≤ (deleteAnnotationFn i s).tourIndex ∧
      (deleteAnnotationFn i s).tourIndex ≤ ((deleteAnnotationFn i s).annotations.length : Int) - 1 := by
  unfold deleteAnnotationFn
  dsimp only
  split
  · constructor <;> omega
  · split <;> constructor <;> omega

lemma delete_empty_cursor (i : Int) (s : ViewerState)
    (h0 : (deleteAnnotationFn i s).annotations.length = 0) :
    (deleteAnnotationFn i s).tourIndex = -1 ∧ (deleteAnnotationFn i s).infoPanelHidden = true := by
  unfold deleteAnnotationFn at h0 ⊢
  dsimp only at h0 ⊢
  rw [if_pos h0, if_pos h0]
  exact ⟨rfl, rfl⟩

lemma inv_delete (i : Int) (s : ViewerState) (h : StateInv s) :
    StateInv (deleteAnnotationFn i s) := by
  obtain ⟨h1, ⟨hc1, hc2⟩, h3⟩ := h
  obtain ⟨hb1, hb2⟩ := delete_tourIndex_bounds i s hc1
  exact ⟨wellNumberedFrom_renumberFrom _ 0, ⟨hb1, hb2⟩, h3⟩

lemma toggleAdd_untouched (s : ViewerState) :
    (toggleAddAnnotationMode s).annotations = s.annotations ∧
      (toggleAddAnnotationMode s).tourIndex = s.tourIndex ∧
      (toggleAddAnnotationMode s).measurePoints = s.measurePoints ∧
      (toggleAddAnnotationMode s).isMeasuring = s.isMeasuring := by
  unfold toggleAddAnnotationMode
  dsimp only
  split <;> exact ⟨rfl, rfl, rfl, rfl⟩

lemma inv_toggleAdd (s : ViewerState) (h : StateInv s) :
    StateInv (toggleAddAnnotationMode s) := by
  obtain ⟨h1, ⟨hc1, hc2⟩, h3⟩ := h
  obtain ⟨e1, e2, e3, -⟩ := toggleAdd_untouched s
  exact ⟨by rw [wellNumbered, e1]; exact h1,
    ⟨by rw [e2]; exact hc1, by rw [e2, e1]; exact hc2⟩, by rw [e3]; exact h3⟩

lemma inv_toggleMeasure (s : ViewerState) (h : StateInv s) :
    StateInv (toggleMeasureMode s) := by
  obtain ⟨h1, ⟨hc1, hc2⟩, h3⟩ := h
  exact ⟨h1, ⟨hc1, hc2⟩, by simp [toggleMeasureMode, clearMeasurement]⟩

lemma inv_updateMarkers (s : ViewerState) (h : StateInv s) : StateInv (updateMarkers s) := h

lemma inv_snoc (s : ViewerState) (a : AnnotationData) (h : StateInv s)
    (ha : a.id = s.annotations.length + 1) :
    StateInv { s with annotations := s.annotations ++ [a], placedMarker := none } := by
  obtain ⟨h1, ⟨hc1, hc2⟩, h3⟩ := h
  refine ⟨?_, ⟨?_, ?_⟩, h3⟩
  · exact wellNumberedFrom_snoc s.annotations 0 a h1 (by omega)
  · exact hc1
  · show s.tourIndex ≤ ((s.annotations ++ [a]).length : Int) - 1
    simp only [List.length_append, List.length_singleton]
    push_cast
    omega

lemma inv_save (s : ViewerState) (h : StateInv s) : StateInv (saveAnnotationFn s) := by
  unfold saveAnnotationFn
  cases hp : s.pendingAnnotationPosition with
  | none => exact h
  | some p =>
    dsimp only
    split
    · exact h
    · exact inv_toggleAdd _ (inv_updateMarkers _ (inv_snoc s _ h rfl))

lemma inv_setPos (p : Vec3) (s : ViewerState) (h : StateInv s) :
    StateInv (setAnnotationPosition p s) := h

lemma inv_addMeasure (p : Vec3) (s : ViewerState) (h : StateInv s)
    (hlen : s.measurePoints.length < 2) : StateInv (addMeasurePoint p s) := by
  obtain ⟨h1, h2, h3⟩ := h
  unfold addMeasurePoint
  dsimp only
  split
  · refine ⟨h1, h2, ?_⟩
    show (s.measurePoints ++ [p]).length ≤ 2
    simp only [List.length_append, List.length_singleton]
    omega
  · refine ⟨h1, h2, ?_⟩
    show (s.measurePoints ++ [p]).length ≤ 2
    simp only [List.length_append, List.length_singleton]
    omega

lemma inv_surfacePart (sh : Option Vec3) (s : ViewerState) (h : StateInv s) :
    StateInv (clickSurfacePart sh s) := by
  unfold clickSurfacePart
  cases sh with
  | none => exact h
  | some p =>
    dsimp only
    split
    case isTrue hc => exact inv_addMeasure p s h hc.2
    case isFalse hc =>
      split
      · exact inv_setPos p s h
      · exact h

lemma inv_click (mh : Option (Int × Bool)) (sh : Option Vec3) (s : ViewerState)
    (h : StateInv s) : StateInv (onCanvasClick mh sh s) := by
  unfold onCanvasClick
  split
  · exact h
  · cases mh with
    | none => exact inv_surfacePart sh s h
    | some pr =>
      dsimp only
      split
      · exact inv_focus pr.1 s h
      · exact inv_surfacePart sh s h

lemma inv_mouseMove (hit : Option Vec3) (s : ViewerState) (h : StateInv s) :
    StateInv (onCanvasMouseMove hit s) := by
  unfold onCanvasMouseMove
  split
  · exact h
  · obtain ⟨h1, h2, h3⟩ := h
    cases hit <;> cases hpm : s.previewMarker <;> exact ⟨h1, h2, h3⟩

lemma inv_endTour (s : ViewerState) (h : StateInv s) : StateInv (endTour s) := by
  obtain ⟨h1, ⟨hc1, hc2⟩, h3⟩ := h
  refine ⟨h1, ⟨?_, ?_⟩, h3⟩
  · show (-1 : Int) ≤ -1
    omega
  · show (-1 : Int) ≤ (s.annotations.length : Int) - 1
    omega

lemma inv_startTour (s : ViewerState) (h : StateInv s) : StateInv (startTour s) := by
  obtain ⟨h1, ⟨hc1, hc2⟩, h3⟩ := h
  unfold startTour
  split
  case isTrue => exact ⟨h1, ⟨hc1, hc2⟩, h3⟩
  case isFalse hne =>
    apply inv_focus
    refine ⟨h1, ⟨?_, ?_⟩, h3⟩
    · show (-1 : Int) ≤ 0
      omega
    · show (0 : Int) ≤ (s.annotations.length : Int) - 1
      omega

lemma inv_next (s : ViewerState) (h : StateInv s) : StateInv (nextTourStop s) := by
  unfold nextTourStop
  split
  · exact inv_focus _ s h
  · exact h

lemma inv_prev (s : ViewerState) (h : StateInv s) : StateInv (prevTourStop s) := by
  unfold prevTourStop
  split
  · exact inv_focus _ s h
  · exact h

lemma inv_escape (s : ViewerState) (h : StateInv s) : StateInv (onEscape s) := by
  unfold onEscape
  dsimp only
  split
  · split
    · exact inv_endTour _ (inv_toggleAdd s h)
    · exact inv_toggleAdd s h
  · split
    · exact inv_endTour _ h
    · exact h

lemma inv_applyOp (op : Op) (s : ViewerState) (h : StateInv s) :
    StateInv (applyOp op s) := by
  cases op with
  | modelLoad => exact h
  | click mh sh => exact inv_click mh sh s h
  | mouseMove hit => exact inv_mouseMove hit s h
  | typeTitle t => exact h
  | typeDescr d => exact h
  | toggleMeasure => exact inv_toggleMeasure s h
  | toggleAdd => exact inv_toggleAdd s h
  | pressSave => exact inv_save s h
  | pressCancel => exact inv_toggleAdd s h
  | pressDelete i => exact inv_delete i s h
  | cardFocus i => exact inv_focus i s h
  | tourToggle =>
    show StateInv (if s.isTourActive then endTour s else startTour s)
    split
    · exact inv_endTour s h
    · exact inv_startTour s h
  | tourNext => exact inv_next s h
  | tourPrev => exact inv_prev s h
  | pressEscape => exact inv_escape s h

lemma inv_initState : StateInv initState := by
  refine ⟨True.intro, ⟨?_, ?_⟩, ?_⟩ <;> simp [initState, cursorInRange]

lemma run_cons (op : Op) (ops : List Op) (s : ViewerState) :
    run (op :: ops) s = run ops (applyOp op s) := rfl

lemma inv_run (ops : List Op) (s : ViewerState) (h : StateInv s) :
    StateInv (run ops s) := by
  induction ops generalizing s with
  | nil => exact h
  | cons op rest ih => exact ih (applyOp op s) (inv_applyOp op s h)

lemma inv_reachable (ops : List Op) : StateInv (run ops initState) :=
  inv_run ops initState inv_initState

lemma focus_fields (i : Int) (s : ViewerState) :
    (focusAnnotationFn i s).measurePoints = s.measurePoints ∧
      (focusAnnotationFn i s).measurementResult = s.measurementResult ∧
      (focusAnnotationFn i s).pendingAnnotationPosition = s.pendingAnnotationPosition ∧
      (focusAnnotationFn i s).annotations = s.annotations := by
  unfold focusAnnotationFn
  cases getAnn s.annotations i <;> exact ⟨rfl, rfl, rfl, rfl⟩

lemma addMeasure_fields (p : Vec3) (s : ViewerState) :
    (addMeasurePoint p s).pendingAnnotationPosition = s.pendingAnnotationPosition ∧
      (addMeasurePoint p s).annotations = s.annotations := by
  unfold addMeasurePoint
  dsimp only
  split <;> exact ⟨rfl, rfl⟩

lemma toggleAdd_exit (t : ViewerState) (h : t.isAddingAnnotationMode = true) :
    toggleAddAnnotationMode t =
      { t with isAddingAnnotationMode := false, cursorStyle := "grab",
               previewMarker := none, placedMarker := none } := by
  unfold toggleAddAnnotationMode
  dsimp only
  split
  case isTrue hc => rw [h] at hc; simp at hc
  case isFalse hc => rfl

lemma toggleAdd_enter (t : ViewerState) (h : t.isAddingAnnotationMode = false) :
    toggleAddAnnotationMode t =
      { t with isAddingAnnotationMode := true, cursorStyle := "crosshair",
               pendingAnnotationPosition := none, saveBtnDisabled := true,
               titleInput := "", descInput := "",
               previewMarker := some (⟨0, -1000 + 9/100, 0⟩, false) } := by
  unfold toggleAddAnnotationMode
  dsimp only
  split
  case isTrue hc => rfl
  case isFalse hc => rw [h] at hc; simp at hc

lemma easeOutCubic_one : easeOutCubic 1 = 1 := by
  norm_num [easeOutCubic]

lemma lerpV_one (a b : Vec3) : lerpV a b 1 = b := by
  cases b with
  | mk bx b2 b3 =>
    simp only [lerpV, Vec3.mk.injEq]
    exact ⟨by ring, by ring, by ring⟩

lemma distanceTo_example : distanceTo ⟨0, 0, 0⟩ ⟨3, 4, 0⟩ = 5 := by
  unfold distanceTo
  norm_num
  rw [show (25 : ℝ) = 5 ^ 2 by norm_num]
  exact Real.sqrt_sq (by norm_num)

/-- C1: for every sequence of user events from the initial state (covering in
particular every sequence of add and delete operations on the annotation
store), after each operation every annotation's ordinal (its id field) equals
its 0-based index plus one, so there are no gaps and no duplicates. -/
theorem annotation_ordinals_equal_index_plus_one (ops : List Op) (j : Nat)
    (h : j < (run ops initState).annotations.length) :
    ((run ops initState).annotations.get ⟨j, h⟩).id = j + 1 := by
  have hw : wellNumbered (run ops initState).annotations := (inv_reachable ops).1
  have hg := wellNumberedFrom_get _ 0 hw j h
  omega

/-- C1 witness: after one add, the stored entry carries ordinal 1. -/
theorem annotation_ordinals_equal_index_plus_one_witness :
    ((run opsOneEntry initState).annotations.get ⟨0, by decide⟩).id = 0 + 1 :=
  annotation_ordinals_equal_index_plus_one opsOneEntry 0 (by decide)

/-- C4: after any deletion from the annotation store (any integer index, in
any reachable state), the tour cursor lies in [-1, N-1] for the new length N,
and if N becomes 0 the cursor is forced to -1 and the info panel (the tour's
detail panel) is hidden. -/
theorem delete_clamps_tour_cursor (ops : List Op) (i : Int) :
    -1 ≤ (deleteAnnotationFn i (run ops initState)).tourIndex ∧
    (deleteAnnotationFn i (run ops initState)).tourIndex ≤
      ((deleteAnnotationFn i (run ops initState)).annotations.length : Int) - 1 ∧
    ((deleteAnnotationFn i (run ops initState)).annotations.length = 0 →
      (deleteAnnotationFn i (run ops initState)).tourIndex = -1 ∧
      (deleteAnnotationFn i (run ops initState)).infoPanelHidden = true) := by
  have hInv := inv_reachable ops
  obtain ⟨hb1, hb2⟩ := delete_tourIndex_bounds i _ hInv.2.1.1
  exact ⟨hb1, hb2, fun h0 => delete_empty_cursor i _ h0⟩

/-- C4 witness: deleting the only annotation forces the cursor to -1 and
hides the detail panel. -/
theorem delete_clamps_tour_cursor_witness :
    (deleteAnnotationFn 0 (run opsOneEntry initState)).tourIndex = -1 ∧
    (deleteAnnotationFn 0 (run opsOneEntry initState)).infoPanelHidden = true :=
  (delete_clamps_tour_cursor opsOneEntry 0).2.2 (by decide)

lemma delete_annotations_def (i : Int) (s : ViewerState) :
    (deleteAnnotationFn i s).annotations = renumberFrom 0 (splice1 s.annotations i) := rfl

lemma delete_tourIndex_def (i : Int) (s : ViewerState) :
    (deleteAnnotationFn i s).tourIndex =
      (if (renumberFrom 0 (splice1 s.annotations i)).length = 0 then -1
       else if ((renumberFrom 0 (splice1 s.annotations i)).length : Int) ≤ s.tourIndex
         then ((renumberFrom 0 (splice1 s.annotations i)).length : Int) - 1
         else s.tourIndex) := rfl

/-- C3 counterexample: deleting at index -1 is not rejected without mutation:
with one stored annotation, JavaScript splice counts -1 from the end and
removes the entry, so the annotation list shrinks from length 1 to 0. -/
theorem delete_negative_index_mutates :
    (run opsOneEntry initState).annotations.length = 1 ∧
    (deleteAnnotationFn (-1) (run opsOneEntry initState)).annotations.length = 0 :=
  ⟨rfl, rfl⟩

/-- C3 amended: focusing at any index outside [0, N-1] (negative or at least
N) is rejected and leaves the whole state unchanged, and deleting at an index
at least N leaves the annotation list (hence its ordinals) and the tour
cursor unchanged; deleting at a negative index, however, follows JavaScript
splice semantics and removes an existing entry when the list is nonempty. -/
theorem out_of_range_delete_and_focus_amended (ops : List Op) (i : Int)
    (hge : ((run ops initState).annotations.length : Int) ≤ i) :
    (deleteAnnotationFn i (run ops initState)).annotations = (run ops initState).annotations ∧
    (deleteAnnotationFn i (run ops initState)).tourIndex = (run ops initState).tourIndex ∧
    ∀ j : Int, (j < 0 ∨ ((run ops initState).annotations.length : Int) ≤ j) →
      focusAnnotationFn j (run ops initState) = run ops initState := by
  obtain ⟨hw, ⟨hc1, hc2⟩, -⟩ := inv_reachable ops
  have hsp : splice1 (run ops initState).annotations i = (run ops initState).annotations :=
    splice1_of_length_le _ i hge
  have hanns : renumberFrom 0 (splice1 (run ops initState).annotations i) =
      (run ops initState).annotations := by
    rw [hsp]
    exact renumberFrom_eq_self _ 0 hw
  refine ⟨?_, ?_, ?_⟩
  · rw [delete_annotations_def, hanns]
  · rw [delete_tourIndex_def, hanns]
    split_ifs <;> omega
  · intro j hj
    exact focus_out_of_range hj

/-- C3 amended witness: with one stored annotation, deleting at index 5 keeps
the list and focusing index -1 keeps the whole state. -/
theorem out_of_range_delete_and_focus_amended_witness :
    (deleteAnnotationFn 5 (run opsOneEntry initState)).annotations =
      (run opsOneEntry initState).annotations ∧
    focusAnnotationFn (-1) (run opsOneEntry initState) = run opsOneEntry initState :=
  ⟨(out_of_range_delete_and_focus_amended opsOneEntry 5 (by decide)).1,
   (out_of_range_delete_and_focus_amended opsOneEntry 5 (by decide)).2.2 (-1) (by decide)⟩

/-- C2 counterexample: toggling measuring mode while placement mode is active
leaves both mode flags set afterwards, so the modes are not mutually
exclusive and entering Measuring does not exit PlacingAnnotation first. -/
theorem measure_toggle_keeps_placement_active :
    (toggleMeasureMode (toggleAddAnnotationMode initState)).isMeasuring = true ∧
    (toggleMeasureMode (toggleAddAnnotationMode initState)).isAddingAnnotationMode = true :=
  ⟨rfl, rfl⟩

/-- C2 amended: the two mode toggles are independent: toggleMeasureMode
inverts only the measuring flag (clearing the measurement session) and leaves
the placement flag unchanged, and toggleAddAnnotationMode inverts only the
placement flag and leaves the measuring flag unchanged; consequently entering
one mode while the other is active leaves both modes active at once. -/
theorem mode_toggles_are_independent (s : ViewerState) :
    (toggleMeasureMode s).isAddingAnnotationMode = s.isAddingAnnotationMode ∧
    (toggleMeasureMode s).isMeasuring = !s.isMeasuring ∧
    (toggleAddAnnotationMode s).isMeasuring = s.isMeasuring ∧
    (toggleAddAnnotationMode s).isAddingAnnotationMode = !s.isAddingAnnotationMode := by
  refine ⟨rfl, rfl, (toggleAdd_untouched s).2.2.2, ?_⟩
  unfold toggleAddAnnotationMode
  dsimp only
  split
  case isTrue hc => exact hc.symm
  case isFalse hc => simp only [Bool.not_eq_true] at hc; exact hc.symm

lemma save_failure (s : ViewerState)
    (h : jsTrim s.titleInput = "" ∨ s.pendingAnnotationPosition = none) :
    saveAnnotationFn s = s := by
  unfold saveAnnotationFn
  cases hp : s.pendingAnnotationPosition with
  | none => rfl
  | some p =>
    dsimp only
    rcases h with h | h
    · rw [if_pos h]
    · rw [hp] at h; simp at h

lemma save_success_annotations (s : ViewerState) (p : Vec3)
    (hp : s.pendingAnnotationPosition = some p) (ht : jsTrim s.titleInput ≠ "") :
    (saveAnnotationFn s).annotations = s.annotations ++
      [{ id := s.annotations.length + 1,
         title := jsTrim s.titleInput,
         description := (if jsTrim s.descInput = "" then "No description provided."
           else jsTrim s.descInput),
         position := p }] := by
  unfold saveAnnotationFn
  rw [hp]
  dsimp only
  rw [if_neg ht, (toggleAdd_untouched _).1]
  rfl

/-- C6: saving fails and leaves the whole state (in particular the annotation
list length and contents) unchanged whenever the title input is empty or no
position has been staged; when it succeeds the new entry is appended with
ordinal equal to the previous length plus one. -/
theorem save_rejects_or_appends_with_next_ordinal (s : ViewerState) :
    ((s.titleInput = "" ∨ s.pendingAnnotationPosition = none) → saveAnnotationFn s = s) ∧
    (∀ p, s.pendingAnnotationPosition = some p → jsTrim s.titleInput ≠ "" →
      (saveAnnotationFn s).annotations = s.annotations ++
        [{ id := s.annotations.length + 1,
           title := jsTrim s.titleInput,
           description := (if jsTrim s.descInput = "" then "No description provided."
             else jsTrim s.descInput),
           position := p }]) := by
  constructor
  · intro h
    apply save_failure
    rcases h with h | h
    · exact Or.inl (by rw [h]; rfl)
    · exact Or.inr h
  · intro p hp ht
    exact save_success_annotations s p hp ht

/-- C6 witness: with a staged position but empty title the state is unchanged;
after typing the title Rider the entry is appended with ordinal length+1. -/
theorem save_rejects_or_appends_with_next_ordinal_witness :
    saveAnnotationFn (run opsStaged initState) = run opsStaged initState ∧
    (saveAnnotationFn (run opsStagedTitled initState)).annotations =
      (run opsStagedTitled initState).annotations ++
        [{ id := (run opsStagedTitled initState).annotations.length + 1,
           title := jsTrim (run opsStagedTitled initState).titleInput,
           description := (if jsTrim (run opsStagedTitled initState).descInput = ""
             then "No description provided."
             else jsTrim (run opsStagedTitled initState).descInput),
           position := ⟨1, 2, 3⟩ }] :=
  ⟨(save_rejects_or_appends_with_next_ordinal (run opsStaged initState)).1 (Or.inl rfl),
   (save_rejects_or_appends_with_next_ordinal (run opsStagedTitled initState)).2
     ⟨1, 2, 3⟩ rfl (by decide)⟩

/-- C10: the title is trimmed before the emptiness check, so a whitespace-only
title is rejected exactly like an empty one; a saved entry stores the trimmed
title and description, an empty trimmed description being replaced by the
fixed placeholder text. -/
theorem save_trims_inputs (s : ViewerState) (p : Vec3)
    (hp : s.pendingAnnotationPosition = some p) :
    (jsTrim s.titleInput = "" → saveAnnotationFn s = s) ∧
    (jsTrim s.titleInput ≠ "" →
      (saveAnnotationFn s).annotations.map (fun a => (a.title, a.description)) =
        s.annotations.map (fun a => (a.title, a.description)) ++
          [(jsTrim s.titleInput,
            if jsTrim s.descInput = "" then "No description provided."
              else jsTrim s.descInput)]) := by
  constructor
  · intro h
    exact save_failure s (Or.inl h)
  · intro ht
    rw [save_success_annotations s p hp ht]
    simp

/-- C10 witness: a whitespace-only title is rejected with no state change; a
padded title with a blank description stores the trimmed title and the
placeholder text. -/
theorem save_trims_inputs_witness :
    saveAnnotationFn (run opsWsTitle initState) = run opsWsTitle initState ∧
    (saveAnnotationFn (run opsPadTitle initState)).annotations.map
        (fun a => (a.title, a.description)) = [("Rider", "No description provided.")] := by
  constructor
  · exact (save_trims_inputs (run opsWsTitle initState) ⟨1, 2, 3⟩ rfl).1 (by decide)
  · rw [(save_trims_inputs (run opsPadTitle initState) ⟨1, 2, 3⟩ rfl).2 (by decide)]
    decide

lemma clickSurfacePart_measure (q : Vec3) (s : ViewerState)
    (hmeas : s.isMeasuring = true) (hlt : s.measurePoints.length < 2) :
    clickSurfacePart (some q) s = addMeasurePoint q s := by
  unfold clickSurfacePart
  dsimp only
  rw [if_pos ⟨hmeas, hlt⟩]

lemma onCanvasClick_measuring (mh : Option (Int × Bool)) (q : Vec3) (s : ViewerState)
    (hm : s.modelLoaded = true) (hmeas : s.isMeasuring = true) :
    onCanvasClick mh (some q) s = clickSurfacePart (some q) s := by
  unfold onCanvasClick
  rw [if_neg (by simp [hm])]
  cases mh with
  | none => rfl
  | some pr =>
    obtain ⟨idx, isPrev⟩ := pr
    dsimp only
    rw [if_neg (by simp [hmeas])]

lemma addMeasurePoint_second (p q : Vec3) (s : ViewerState)
    (hpts : s.measurePoints = [p]) :
    (addMeasurePoint q s).measurePoints = [p, q] ∧
    (addMeasurePoint q s).measurementResult = some (distanceTo p q) := by
  unfold addMeasurePoint
  dsimp only
  rw [hpts]
  exact ⟨rfl, rfl⟩

lemma click_measure_unchanged (mh : Option (Int × Bool)) (sh : Option Vec3)
    (s : ViewerState) (h : ¬(s.isMeasuring = true ∧ s.measurePoints.length < 2)) :
    (onCanvasClick mh sh s).measurePoints = s.measurePoints ∧
    (onCanvasClick mh sh s).measurementResult = s.measurementResult := by
  have hsurf : (clickSurfacePart sh s).measurePoints = s.measurePoints ∧
      (clickSurfacePart sh s).measurementResult = s.measurementResult := by
    unfold clickSurfacePart
    cases sh with
    | none => exact ⟨rfl, rfl⟩
    | some p =>
      dsimp only
      rw [if_neg h]
      split
      · exact ⟨rfl, rfl⟩
      · exact ⟨rfl, rfl⟩
  unfold onCanvasClick
  split
  · exact ⟨rfl, rfl⟩
  · cases mh with
    | none => exact hsurf
    | some pr =>
      obtain ⟨idx, isPrev⟩ := pr
      dsimp only
      split
      · exact ⟨(focus_fields idx s).1, (focus_fields idx s).2.1⟩
      · exact hsurf

/-- C5: in measuring mode with one collected point, the next surface pick
records the second point and publishes exactly the Euclidean distance between
the two picked points; once two points are collected any further pick is
rejected (the point list and the readout stay unchanged), and in every
reachable state the measurement point list never exceeds two entries. -/
theorem measurement_second_pick_publishes_distance (ops : List Op) (s : ViewerState)
    (mh : Option (Int × Bool)) (sh : Option Vec3) (p q : Vec3) :
    (s.modelLoaded = true → s.isMeasuring = true → s.measurePoints = [p] →
      (onCanvasClick mh (some q) s).measurePoints = [p, q] ∧
      (onCanvasClick mh (some q) s).measurementResult = some (distanceTo p q)) ∧
    (2 ≤ s.measurePoints.length →
      (onCanvasClick mh sh s).measurePoints = s.measurePoints ∧
      (onCanvasClick mh sh s).measurementResult = s.measurementResult) ∧
    (run ops initState).measurePoints.length ≤ 2 := by
  refine ⟨?_, ?_, (inv_reachable ops).2.2⟩
  · intro hm hmeas hpts
    rw [onCanvasClick_measuring mh q s hm hmeas,
        clickSurfacePart_measure q s hmeas (by rw [hpts]; simp)]
    exact addMeasurePoint_second p q s hpts
  · intro h2
    exact click_measure_unchanged mh sh s (fun hc => absurd hc.2 (by omega))

/-- C5 witness: picks at (0,0,0) then (3,4,0) publish distance 5, matching the
example of the specification. -/
theorem measurement_second_pick_publishes_distance_witness :
    (onCanvasClick none (some ⟨3, 4, 0⟩) sOnePt).measurePoints =
      [⟨0, 0, 0⟩, ⟨3, 4, 0⟩] ∧
    (onCanvasClick none (some ⟨3, 4, 0⟩) sOnePt).measurementResult = some 5 := by
  have h := (measurement_second_pick_publishes_distance [] sOnePt none none
    ⟨0, 0, 0⟩ ⟨3, 4, 0⟩).1 rfl rfl rfl
  refine ⟨h.1, ?_⟩
  rw [h.2, distanceTo_example]

/-- C7 counterexample: a tick of a zero-duration animation at elapsed time 0
computes 0/0 (NaN in JavaScript), so the camera is poisoned (none) rather
than placed at the destination. -/
theorem camera_zero_duration_zero_elapsed_not_destination :
    cameraTick ⟨0, 0, 0⟩ ⟨3, 4, 0⟩ ⟨0, 0, 0⟩ ⟨0, 0, 0⟩ 0 0 = none ∧
    cameraTick ⟨0, 0, 0⟩ ⟨3, 4, 0⟩ ⟨0, 0, 0⟩ ⟨0, 0, 0⟩ 0 0 ≠
      some (⟨3, 4, 0⟩, ⟨0, 0, 0⟩) :=
  ⟨rfl, by decide⟩

/-- C7 amended: for positive duration each tick computes
progress = min(elapsed/duration, 1), which lies in [0,1] for nonnegative
elapsed, eases it by 1-(1-progress)^3 and linearly interpolates position and
target from the call-time samples, reaching exactly the destination once
elapsed is at least the duration; for duration = 0 a tick with positive
elapsed reaches eased = 1 and exactly the destination, but the immediate tick
at elapsed = 0 computes 0/0 (NaN in JavaScript, none in the model), so the
camera is not set to the destination there. -/
theorem camera_tick_spec (sp np st nt : Vec3) (elapsed duration : ℚ) :
    (0 < duration →
      cameraTick sp np st nt elapsed duration =
        some (lerpV sp np (easeOutCubic (min (elapsed / duration) 1)),
              lerpV st nt (easeOutCubic (min (elapsed / duration) 1)))) ∧
    (0 ≤ elapsed → 0 < duration →
      0 ≤ min (elapsed / duration) 1 ∧ min (elapsed / duration) 1 ≤ 1) ∧
    (0 < duration → duration ≤ elapsed →
      cameraTick sp np st nt elapsed duration = some (np, nt)) ∧
    (duration = 0 → 0 < elapsed →
      cameraTick sp np st nt elapsed duration = some (np, nt)) := by
  refine ⟨?_, ?_, ?_, ?_⟩
  · intro hd
    unfold cameraTick jsProgress
    rw [if_neg hd.ne']
    rfl
  · intro he hd
    exact ⟨le_min (div_nonneg he hd.le) zero_le_one, min_le_right _ _⟩
  · intro hd hde
    unfold cameraTick jsProgress
    rw [if_neg hd.ne']
    have h1 : min (elapsed / duration) 1 = 1 := min_eq_right ((one_le_div hd).mpr hde)
    dsimp only [Option.map]
    rw [h1, easeOutCubic_one, lerpV_one, lerpV_one]
  · intro h0 he
    unfold cameraTick jsProgress
    rw [if_pos h0, if_pos he]
    dsimp only [Option.map]
    rw [easeOutCubic_one, lerpV_one, lerpV_one]

/-- C7 witness: elapsed past the duration, and duration 0 with positive
elapsed, both land exactly on the destination pair. -/
theorem camera_tick_spec_witness :
    cameraTick ⟨0, 0, 0⟩ ⟨3, 4, 0⟩ ⟨0, 0, 0⟩ ⟨1, 1, 1⟩ 2 1 =
      some (⟨3, 4, 0⟩, ⟨1, 1, 1⟩) ∧
    cameraTick ⟨0, 0, 0⟩ ⟨3, 4, 0⟩ ⟨0, 0, 0⟩ ⟨1, 1, 1⟩ 5 0 =
      some (⟨3, 4, 0⟩, ⟨1, 1, 1⟩) :=
  ⟨(camera_tick_spec ⟨0, 0, 0⟩ ⟨3, 4, 0⟩ ⟨0, 0, 0⟩ ⟨1, 1, 1⟩ 2 1).2.2.1
      (by norm_num) (by norm_num),
   (camera_tick_spec ⟨0, 0, 0⟩ ⟨3, 4, 0⟩ ⟨0, 0, 0⟩ ⟨1, 1, 1⟩ 5 0).2.2.2
      rfl (by norm_num)⟩

lemma onCanvasClick_marker_focus (i : Int) (sh : Option Vec3) (s : ViewerState)
    (hm : s.modelLoaded = true) (hmeas : s.isMeasuring = false)
    (hadd : s.isAddingAnnotationMode = false) (hmk : 0 < s.annotationMarkers.length) :
    onCanvasClick (some (i, false)) sh s = focusAnnotationFn i s := by
  unfold onCanvasClick
  rw [if_neg (by simp [hm])]
  dsimp only
  rw [if_pos ⟨hmeas, hadd, hmk, rfl⟩]

lemma clickSurfacePart_place (p : Vec3) (s : ViewerState)
    (hadd : s.isAddingAnnotationMode = true)
    (hnm : ¬(s.isMeasuring = true ∧ s.measurePoints.length < 2)) :
    clickSurfacePart (some p) s = setAnnotationPosition p s := by
  unfold clickSurfacePart
  dsimp only
  rw [if_neg hnm, if_pos hadd]

lemma onCanvasClick_adding (mh : Option (Int × Bool)) (sh : Option Vec3)
    (s : ViewerState) (hm : s.modelLoaded = true)
    (hadd : s.isAddingAnnotationMode = true) :
    onCanvasClick mh sh s = clickSurfacePart sh s := by
  unfold onCanvasClick
  rw [if_neg (by simp [hm])]
  cases mh with
  | none => rfl
  | some pr =>
    obtain ⟨idx, isPrev⟩ := pr
    dsimp only
    rw [if_neg (by simp [hadd])]

lemma click_pending_unchanged (mh : Option (Int × Bool)) (sh : Option Vec3)
    (s : ViewerState) (hadd : s.isAddingAnnotationMode = false) :
    (onCanvasClick mh sh s).pendingAnnotationPosition = s.pendingAnnotationPosition := by
  have hsurf : (clickSurfacePart sh s).pendingAnnotationPosition =
      s.pendingAnnotationPosition := by
    unfold clickSurfacePart
    cases sh with
    | none => rfl
    | some p =>
      dsimp only
      split
      · exact (addMeasure_fields p s).1
      · rw [if_neg (by simp [hadd])]
  unfold onCanvasClick
  split
  · rfl
  · cases mh with
    | none => exact hsurf
    | some pr =>
      obtain ⟨idx, isPrev⟩ := pr
      dsimp only
      split
      · exact (focus_fields idx s).2.2.1
      · exact hsurf

/-- C8: pointer-click routing priority: outside both modes with markers
present, a resolved non-preview marker hit focuses that annotation and
short-circuits the surface pick; in measuring mode with fewer than two points
a surface hit is recorded as a measurement point; otherwise, in placement
mode a surface hit is staged as the pending position (replacing any previous
one) and the save action is enabled; a measurement point is recorded only in
measuring mode with fewer than two points, and the pending position changes
only in placement mode. -/
theorem click_routing_priority (s : ViewerState) (mh : Option (Int × Bool))
    (sh : Option Vec3) (i : Int) (p : Vec3) (hm : s.modelLoaded = true) :
    (s.isMeasuring = false → s.isAddingAnnotationMode = false →
      0 < s.annotationMarkers.length →
      onCanvasClick (some (i, false)) sh s = focusAnnotationFn i s) ∧
    (s.isMeasuring = true → s.measurePoints.length < 2 →
      onCanvasClick mh (some p) s = addMeasurePoint p s) ∧
    (s.isAddingAnnotationMode = true →
      ¬(s.isMeasuring = true ∧ s.measurePoints.length < 2) →
      onCanvasClick mh (some p) s = setAnnotationPosition p s ∧
      (onCanvasClick mh (some p) s).pendingAnnotationPosition = some p ∧
      (onCanvasClick mh (some p) s).saveBtnDisabled = false) ∧
    (¬(s.isMeasuring = true ∧ s.measurePoints.length < 2) →
      (onCanvasClick mh sh s).measurePoints = s.measurePoints) ∧
    (s.isAddingAnnotationMode = false →
      (onCanvasClick mh sh s).pendingAnnotationPosition =
        s.pendingAnnotationPosition) := by
  refine ⟨?_, ?_, ?_, ?_, ?_⟩
  · intro hmeas hadd hmk
    exact onCanvasClick_marker_focus i sh s hm hmeas hadd hmk
  · intro hmeas hlt
    rw [onCanvasClick_measuring mh p s hm hmeas, clickSurfacePart_measure p s hmeas hlt]
  · intro hadd hnm
    have he : onCanvasClick mh (some p) s = setAnnotationPosition p s := by
      rw [onCanvasClick_adding mh (some p) s hm hadd, clickSurfacePart_place p s hadd hnm]
    exact ⟨he, by rw [he]; rfl, by rw [he]; rfl⟩
  · intro hnm
    exact (click_measure_unchanged mh sh s hnm).1
  · intro hadd
    exact click_pending_unchanged mh sh s hadd

/-- C8 witness: in the idle state with one marker a marker hit focuses that
annotation; in placement mode a surface hit stages the clicked point. -/
theorem click_routing_priority_witness :
    onCanvasClick (some (0, false)) none (run opsOneEntry initState) =
      focusAnnotationFn 0 (run opsOneEntry initState) ∧
    (onCanvasClick none (some ⟨7, 8, 9⟩)
        (run opsStaged initState)).pendingAnnotationPosition = some ⟨7, 8, 9⟩ :=
  ⟨(click_routing_priority (run opsOneEntry initState) none none 0 ⟨0, 0, 0⟩ rfl).1
      rfl rfl (by decide),
   ((click_routing_priority (run opsStaged initState) none none 0 ⟨7, 8, 9⟩ rfl).2.2.1
      rfl (by decide)).2.1⟩

/-- C9 counterexample: cancelling placement after staging a position leaves
the staged candidate position in state: the transition back to Idle does not
discard the pending placement position. -/
theorem pending_position_survives_exit :
    (cancelAnnotationFn (run opsStaged initState)).isAddingAnnotationMode = false ∧
    (cancelAnnotationFn (run opsStaged initState)).pendingAnnotationPosition =
      some ⟨1, 2, 3⟩ :=
  ⟨rfl, rfl⟩

lemma toggleAdd_exit_fields (t : ViewerState) (h : t.isAddingAnnotationMode = true) :
    (toggleAddAnnotationMode t).isAddingAnnotationMode = false ∧
    (toggleAddAnnotationMode t).previewMarker = none ∧
    (toggleAddAnnotationMode t).placedMarker = none ∧
    (toggleAddAnnotationMode t).pendingAnnotationPosition = t.pendingAnnotationPosition := by
  rw [toggleAdd_exit t h]
  exact ⟨rfl, rfl, rfl, rfl⟩

lemma save_success_exit (s : ViewerState) (p : Vec3)
    (hp : s.pendingAnnotationPosition = some p) (ht : jsTrim s.titleInput ≠ "")
    (h : s.isAddingAnnotationMode = true) :
    (saveAnnotationFn s).isAddingAnnotationMode = false ∧
    (saveAnnotationFn s).previewMarker = none ∧
    (saveAnnotationFn s).placedMarker = none ∧
    (saveAnnotationFn s).pendingAnnotationPosition = some p := by
  unfold saveAnnotationFn
  rw [hp]
  dsimp only
  rw [if_neg ht]
  unfold updateMarkers toggleAddAnnotationMode
  dsimp only
  rw [h]
  rw [if_neg (by simp)]
  exact ⟨rfl, rfl, rfl, rfl⟩

/-- C9 amended: every transition from placement mode to Idle (cancel and the
escape key go through toggleAddAnnotationMode, and a successful save removes
the placed marker and then toggles the mode off) removes the preview and
placed indicator markers, but the pending placement position is NOT discarded
by the transition: it survives in state and is only reset to null on the next
entry into placement mode. -/
theorem placement_exit_removes_markers (s : ViewerState)
    (h : s.isAddingAnnotationMode = true) :
    (toggleAddAnnotationMode s).isAddingAnnotationMode = false ∧
    (toggleAddAnnotationMode s).previewMarker = none ∧
    (toggleAddAnnotationMode s).placedMarker = none ∧
    (toggleAddAnnotationMode s).pendingAnnotationPosition =
      s.pendingAnnotationPosition ∧
    (∀ p, s.pendingAnnotationPosition = some p → jsTrim s.titleInput ≠ "" →
      (saveAnnotationFn s).isAddingAnnotationMode = false ∧
      (saveAnnotationFn s).previewMarker = none ∧
      (saveAnnotationFn s).placedMarker = none ∧
      (saveAnnotationFn s).pendingAnnotationPosition = some p) ∧
    (∀ t : ViewerState, t.isAddingAnnotationMode = false →
      (toggleAddAnnotationMode t).pendingAnnotationPosition = none) := by
  rw [toggleAdd_exit s h]
  refine ⟨rfl, rfl, rfl, rfl, ?_, ?_⟩
  · intro p hp ht
    exact save_success_exit s p hp ht h
  · intro t htf
    rw [toggleAdd_enter t htf]

/-- C9 amended witness: cancelling after staging removes the markers but the
staged position survives; a successful save keeps it as well. -/
theorem placement_exit_removes_markers_witness :
    (toggleAddAnnotationMode (run opsStagedTitled initState)).previewMarker = none ∧
    (toggleAddAnnotationMode (run opsStagedTitled initState)).placedMarker = none ∧
    (toggleAddAnnotationMode (run opsStagedTitled initState)).pendingAnnotationPosition =
      (run opsStagedTitled initState).pendingAnnotationPosition ∧
    (saveAnnotationFn (run opsStagedTitled initState)).pendingAnnotationPosition =
      some ⟨1, 2, 3⟩ := by
  have h := placement_exit_removes_markers (run opsStagedTitled initState) rfl
  exact ⟨h.2.1, h.2.2.1, h.2.2.2.1, (h.2.2.2.2.1 ⟨1, 2, 3⟩ rfl (by decide)).2.2.2⟩
